import Mathlib

/-!
Verification of the signal-cli provisioning tool (`register.py`).

The file shallowly embeds the pure decision logic of the tool:
string predicates used for release-asset selection, the jar class-file
version sniffing, the major-version lookup table, the launcher-script
patching loop, zip extraction destination/skip logic, and the local
input validation of the registration session.  Bytes are modelled as
`Nat`, file contents as `List Nat`, text files as lists of line
strings (each carrying its terminator), and the filesystem as an
explicit record threaded through the functions that touch it.
-/

namespace SignalRegister

/-- Suffix test on strings, modelling Python `str.endswith` by
character-list suffix comparison. -/
def strEndsWith (s suf : String) : Bool :=
  suf.toList.isSuffixOf s.toList

/-- Lower-casing of a string, modelling Python `str.lower` on the
ASCII names this tool handles. -/
def strToLower (s : String) : String :=
  String.mk (s.toList.map Char.toLower)

/-- Substring containment, modelling the Python `in` operator on
strings: `sub` occurs contiguously in `s`. -/
def strContains (s sub : String) : Bool :=
  s.toList.tails.any (fun t => sub.toList.isPrefixOf t)

/-! ## GithubUtils.get_latest_release (asset selection) -/

/-- Predicate the loop body of `GithubUtils.get_latest_release` tests on
each asset name: `asset.name.endswith(".tar.gz") and "linux" not in
asset.name.lower()`. -/
def codeAssetPred (name : String) : Bool :=
  strEndsWith name ".tar.gz" && !(strContains (strToLower name) "linux")

/-- Asset selection of `GithubUtils.get_latest_release`: iterate the
release's assets in order and return the first whose name ends in
`.tar.gz` and does not mention `linux` (case-insensitive); `none` when
no asset matches. -/
def get_latest_release : List String → Option String
  | [] => none
  | a :: rest =>
    if codeAssetPred a then some a else get_latest_release rest

/-- Archive suffixes named by the specification for asset selection
(the source only uses this set in `FileUtils.get_name_without_extension`). -/
def archiveSuffixes : List String :=
  [".tar.gz", ".tar.bz2", ".zip", ".rar", ".7z"]

/-- Modelled from the spec: asset selection as the specification words
it, filtering to names ending in one of the five archive suffixes and
not containing `linux` (case-insensitive), taking the first match.
Kept separate from `get_latest_release` so the two can be compared. -/
def get_latest_release_spec : List String → Option String
  | [] => none
  | a :: rest =>
    if (archiveSuffixes.any (fun suf => strEndsWith a suf))
        && !(strContains (strToLower a) "linux") then some a
    else get_latest_release_spec rest

/-! ## JavaUtils.get_java_version_of_file -/

/-- Entry of a zip/jar archive: a name and the raw bytes of its data. -/
structure JarEntry where
  name : String
  data : List Nat
deriving DecidableEq

/-- Reading the first 8 bytes of a class file and unpacking them as
`struct.unpack` with format string big-endian I (4-byte magic),
H (2-byte minor), H (2-byte major) does; `none` when fewer than 8
bytes are available. -/
def readHeader : List Nat → Option (Nat × Nat × Nat)
  | b0 :: b1 :: b2 :: b3 :: b4 :: b5 :: b6 :: b7 :: _ =>
      some (((b0 * 256 + b1) * 256 + b2) * 256 + b3,
            b4 * 256 + b5,
            b6 * 256 + b7)
  | _ => none

/-- Embedding of `JavaUtils.get_java_version_of_file`: walk the
archive's entries in stored order; for each entry named `*.class`
read its 8-byte header; entries with a short header or a magic other
than 0xCAFEBABE are skipped; the first surviving entry's 2-byte
big-endian major version is returned; `none` when no entry qualifies. -/
def get_java_version_of_file : List JarEntry → Option Nat
  | [] => none
  | e :: rest =>
    if strEndsWith e.name ".class" then
      match readHeader e.data with
      | some (magic, _, major) =>
          if magic = 0xCAFEBABE then some major
          else get_java_version_of_file rest
      | none => get_java_version_of_file rest
    else get_java_version_of_file rest

/-- Qualifying entry: named `*.class`, at least 8 bytes of data, and
magic number 0xCAFEBABE. -/
def qualifies (e : JarEntry) : Bool :=
  strEndsWith e.name ".class" &&
    (match readHeader e.data with
     | some (magic, _, _) => magic == 0xCAFEBABE
     | none => false)

/-- Major version carried by an entry's header (0 when the header is
too short; only used on entries that satisfy `qualifies`). -/
def entryMajor (e : JarEntry) : Nat :=
  match readHeader e.data with
  | some (_, _, major) => major
  | none => 0

end SignalRegister

namespace SignalRegister

/-- Claim C1: for every jar, `get_java_version_of_file` returns the
major version of the first entry (in archive order) that ends in
`.class`, has a full 8-byte header and magic 0xCAFEBABE; qualifying
entries preceded by short-header or wrong-magic `.class` entries are
still found, and when no entry qualifies the result is `none`. -/
theorem get_java_version_first_qualifying :
    ∀ entries : List JarEntry,
      get_java_version_of_file entries = (entries.find? qualifies).map entryMajor := by
  intro entries
  induction entries with
  | nil => rfl
  | cons e rest ih =>
    rcases hrh : readHeader e.data with _ | ⟨magic, minor, major⟩
    · cases hcl : strEndsWith e.name ".class"
      · have hq : qualifies e = false := by simp [qualifies, hcl]
        rw [List.find?_cons_of_neg _ (by simp [hq])]
        simpa [get_java_version_of_file, hcl] using ih
      · have hq : qualifies e = false := by simp [qualifies, hcl, hrh]
        rw [List.find?_cons_of_neg _ (by simp [hq])]
        simpa [get_java_version_of_file, hcl, hrh] using ih
    · cases hcl : strEndsWith e.name ".class"
      · have hq : qualifies e = false := by simp [qualifies, hcl]
        rw [List.find?_cons_of_neg _ (by simp [hq])]
        simpa [get_java_version_of_file, hcl] using ih
      · by_cases hm : magic = 0xCAFEBABE
        · have hq : qualifies e = true := by simp [qualifies, hcl, hrh, hm]
          rw [List.find?_cons_of_pos _ (by simp [hq])]
          simp [get_java_version_of_file, hcl, hrh, hm, entryMajor]
        · have hq : qualifies e = false := by simp [qualifies, hcl, hrh, hm]
          rw [List.find?_cons_of_neg _ (by simp [hq])]
          simpa [get_java_version_of_file, hcl, hrh, hm] using ih

/-- Claim C2, counterexample: the asset `signal-cli-1.0.zip` satisfies
the claim's filter (ends in `.zip`, one of the five listed suffixes,
and contains no `linux`), so the claim predicts it is selected from
the singleton asset list; the code's selection returns `none` on that
list, because the source only accepts `.tar.gz`.  The spec-worded
selection indeed picks it, the code's does not. -/
theorem get_latest_release_zip_not_selected :
    get_latest_release ["signal-cli-1.0.zip"] = none
      ∧ get_latest_release_spec ["signal-cli-1.0.zip"] = some "signal-cli-1.0.zip"
      ∧ ((archiveSuffixes.any (fun suf => strEndsWith "signal-cli-1.0.zip" suf))
          && !(strContains (strToLower "signal-cli-1.0.zip") "linux")) = true := by
  refine ⟨by decide, by decide, by decide⟩

/-- Claim C2, amended: the selection returns the first asset whose
name ends in `.tar.gz` (only this one suffix, not the five-suffix
set) and whose lowercased name does not contain `linux`; on the asset
list of the end-to-end scenario it selects the second asset. -/
theorem get_latest_release_first_targz :
    (∀ assets : List String, get_latest_release assets = assets.find? codeAssetPred)
      ∧ get_latest_release ["signal-cli-1.0-linux.tar.gz", "signal-cli-1.0.tar.gz"]
          = some "signal-cli-1.0.tar.gz" := by
  constructor
  · intro assets
    induction assets with
    | nil => rfl
    | cons a rest ih =>
      cases hp : codeAssetPred a
      · rw [List.find?_cons_of_neg _ (by simp [hp])]
        simpa [get_latest_release, hp] using ih
      · rw [List.find?_cons_of_pos _ (by simp [hp])]
        simp [get_latest_release, hp]
  · decide

/-! ## SignalCLISetup.modify_batch_file -/

/-- Literal line the patcher searches for, terminator included. -/
def original_line : String := "set JAVA_EXE=%JAVA_HOME%/bin/java.exe\n"

/-- Replacement line built from the custom java executable path. -/
def modified_line (custom_java_exe : String) : String :=
  "set JAVA_EXE=" ++ custom_java_exe ++ "\n"

/-- Embedding of the rewrite loop of `SignalCLISetup.modify_batch_file`:
for each line read from the launcher script, write `modified_line` when
the line equals `original_line` exactly and the line itself otherwise;
the Boolean is the `replaced` flag that selects which message is
logged afterwards.  The loop has no break: it tests every line. -/
def modify_batch_file : List String → String → List String × Bool
  | [], _custom => ([], false)
  | line :: rest, custom =>
    let r := modify_batch_file rest custom
    if line = original_line then (modified_line custom :: r.1, true)
    else (line :: r.1, r.2)

/-- Value `SignalCLISetup.modify_batch_file` returns to its caller: the
Python function has a bare `return` on the missing-file path and falls
off the end otherwise, so every path — line replaced or not — returns
`None`; the `replaced` flag only chooses a log message. -/
def modify_batch_file_ret (_lines : List String) (_custom_java_exe : String) :
    Option Unit :=
  none

/-- Claim C3, counterexample: on a script whose target literal occurs
twice, the patcher rewrites both occurrences — the second does not
pass through unchanged as the claim states, since the loop has no
break after the first match. -/
theorem modify_batch_file_replaces_second_occurrence :
    (modify_batch_file [original_line, original_line] "C:/jdk/bin/java.exe").1
        = [modified_line "C:/jdk/bin/java.exe", modified_line "C:/jdk/bin/java.exe"]
      ∧ modified_line "C:/jdk/bin/java.exe" ≠ original_line := by
  refine ⟨by decide, by decide⟩

/-- Characterization of the rewrite loop shared by the patching
statements below: the written lines are the input lines with every
exact match of the literal substituted, and the `replaced` flag is
the existence of a match. -/
theorem modify_batch_file_map_any :
    ∀ (lines : List String) (custom : String),
      (modify_batch_file lines custom).1
          = lines.map (fun line =>
              if line = original_line then modified_line custom else line)
        ∧ (modify_batch_file lines custom).2
            = lines.any (fun line => line == original_line) := by
  intro lines custom
  induction lines with
  | nil => exact ⟨rfl, rfl⟩
  | cons line rest ih =>
    by_cases h : line = original_line
    · simp [modify_batch_file, h, ih.1]
    · simp [modify_batch_file, h, ih.1, ih.2]

/-- Claim C3, amended: the patcher replaces every exact match of the
literal line (not only the first) with the line assigning the given
runtime path, and every line different from the literal passes through
unchanged, terminator included; the `replaced` flag is set exactly
when some line matched. -/
theorem modify_batch_file_replaces_every_match :
    ∀ (lines : List String) (custom : String),
      (modify_batch_file lines custom).1
          = lines.map (fun line =>
              if line = original_line then modified_line custom else line)
        ∧ (modify_batch_file lines custom).2
            = lines.any (fun line => line == original_line) :=
  fun lines custom => modify_batch_file_map_any lines custom

/-- Claim C4, counterexample: a run in which the target line is absent
(the `replaced` flag stays false, so the not-found message is logged)
returns the very same value, `None`, as a run in which the line is
found and rewritten — the caller cannot branch on the outcome. -/
theorem modify_batch_file_ret_same_as_success :
    modify_batch_file_ret ["echo off\n"] "C:/jdk/bin/java.exe"
        = modify_batch_file_ret [original_line] "C:/jdk/bin/java.exe"
      ∧ (modify_batch_file ["echo off\n"] "C:/jdk/bin/java.exe").2 = false
      ∧ (modify_batch_file [original_line] "C:/jdk/bin/java.exe").2 = true := by
  refine ⟨rfl, by decide, by decide⟩

/-- Claim C4, amended: on a script with no occurrence of the target
literal the patcher writes the lines back unchanged and logs the
distinct not-found message (the `replaced` flag is false), but its
return value is `None`, identical to the value returned on success,
so the distinction is visible only in the log, not to a caller
branching on the result. -/
theorem modify_batch_file_not_found_noop :
    ∀ (lines : List String) (custom : String),
      original_line ∉ lines →
        (modify_batch_file lines custom).1 = lines
          ∧ (modify_batch_file lines custom).2 = false
          ∧ modify_batch_file_ret lines custom
              = modify_batch_file_ret [original_line] custom := by
  intro lines custom hnot
  refine ⟨?_, ?_, rfl⟩
  · rw [(modify_batch_file_map_any lines custom).1]
    conv_rhs => rw [← List.map_id lines]
    apply List.map_congr_left
    intro line hline
    have : line ≠ original_line := fun heq => hnot (heq ▸ hline)
    simp [this]
  · rw [(modify_batch_file_map_any lines custom).2]
    simp only [List.any_eq_false, beq_iff_eq]
    intro line hline heq
    exact hnot (heq ▸ hline)

/-- Concrete instance of `modify_batch_file_not_found_noop` on a
one-line script without the target literal. -/
theorem modify_batch_file_not_found_noop_witness :
    (modify_batch_file ["echo hello\n"] "C:/jdk/bin/java.exe").1 = ["echo hello\n"]
      ∧ (modify_batch_file ["echo hello\n"] "C:/jdk/bin/java.exe").2 = false
      ∧ modify_batch_file_ret ["echo hello\n"] "C:/jdk/bin/java.exe"
          = modify_batch_file_ret [original_line] "C:/jdk/bin/java.exe" :=
  modify_batch_file_not_found_noop ["echo hello\n"] "C:/jdk/bin/java.exe" (by decide)

/-! ## JavaUtils.java_version_from_major and download_openjdk -/

/-- Lookup table of `JavaUtils.java_version_from_major`, in the order
the dictionary literal writes it. -/
def version_mapping : List (Nat × String) :=
  [(45, "Java 1.1"), (46, "Java 1.2"), (47, "Java 1.3"), (48, "Java 1.4"),
   (49, "Java 5"), (50, "Java 6"), (51, "Java 7"), (52, "Java 8"),
   (53, "Java 9"), (54, "Java 10"), (55, "Java 11"), (56, "Java 12"),
   (57, "Java 13"), (58, "Java 14"), (59, "Java 15"), (60, "Java 16"),
   (61, "Java 17"), (62, "Java 18"), (63, "Java 19"), (64, "Java 20"),
   (65, "Java 21"), (66, "Java 22"), (67, "Java 23"), (68, "Java 24"),
   (69, "Java 25"), (70, "Java 26"), (71, "Java 27"), (72, "Java 28"),
   (73, "Java 29"), (74, "Java 30")]

/-- Embedding of `JavaUtils.java_version_from_major`: dictionary lookup
with default, exactly `version_mapping.get(major_version, "Unknown Java
version")`. -/
def java_version_from_major (major_version : Nat) : String :=
  (version_mapping.lookup major_version).getD "Unknown Java version"

/-- Digit filtering performed by the first line of
`JavaUtils.download_openjdk`: the regular-expression substitution that
deletes every non-digit character from the label. -/
def stripNonDigits (s : String) : String :=
  String.mk (s.toList.filter Char.isDigit)

/-- Version string `JavaUtils.download_openjdk` passes to the runtime
distribution index: the label with all non-digit characters removed. -/
def openjdkRequestedVersion (version : String) : String :=
  stripNonDigits version

/-- Helper: an association-list lookup misses when no key matches. -/
theorem lookup_eq_none_of_no_key {α β : Type} [DecidableEq α]
    (l : List (α × β)) (a : α) (h : ∀ p ∈ l, p.1 ≠ a) : l.lookup a = none := by
  induction l with
  | nil => rfl
  | cons p t ih =>
    obtain ⟨k, v⟩ := p
    have hk : k ≠ a := h (k, v) (List.mem_cons_self _ t)
    have hp : (a == k) = false := beq_eq_false_iff_ne.mpr (fun heq => hk heq.symm)
    simp only [List.lookup, hp]
    exact ih (fun q hq => h q (List.mem_cons_of_mem _ hq))

/-- Claim C5, counterexample: for the out-of-table major 999 the
mapping returns the string `Unknown Java version`, not the string
`Unknown` the claim names as the sentinel. -/
theorem java_version_from_major_999_sentinel :
    java_version_from_major 999 = "Unknown Java version"
      ∧ java_version_from_major 999 ≠ "Unknown" := by
  refine ⟨by decide, by decide⟩

/-- Claim C5, amended: the mapping sends 52 to `Java 8`, and every
major number outside the table 45 to 74 (for example 999) to the
sentinel `Unknown Java version` rather than failing. -/
theorem java_version_from_major_table :
    java_version_from_major 52 = "Java 8"
      ∧ ∀ m : Nat, (m < 45 ∨ 74 < m) →
          java_version_from_major m = "Unknown Java version" := by
  refine ⟨by decide, ?_⟩
  intro m hm
  have hnone : version_mapping.lookup m = none := by
    apply lookup_eq_none_of_no_key
    intro p hp
    fin_cases hp <;> (simp only [] ; omega)
  simp [java_version_from_major, hnone]

/-- Concrete instance of `java_version_from_major_table` at major 999. -/
theorem java_version_from_major_table_witness :
    java_version_from_major 52 = "Java 8"
      ∧ java_version_from_major 999 = "Unknown Java version" :=
  ⟨java_version_from_major_table.1,
   java_version_from_major_table.2 999 (Or.inr (by decide))⟩

/-- Claim C8: stripping the non-digit characters from the legacy
labels `Java 1.1` … `Java 1.4` yields `11` … `14`, so a bundle with
class-format major 45 makes the resolver request the same version
string as one with major 55 (Java 11); for majors 49 to 74 the
stripped label is the decimal representation of the major minus 44. -/
theorem legacy_label_strip_no_roundtrip :
    openjdkRequestedVersion (java_version_from_major 45) = "11"
      ∧ openjdkRequestedVersion (java_version_from_major 46) = "12"
      ∧ openjdkRequestedVersion (java_version_from_major 47) = "13"
      ∧ openjdkRequestedVersion (java_version_from_major 48) = "14"
      ∧ openjdkRequestedVersion (java_version_from_major 45)
          = openjdkRequestedVersion (java_version_from_major 55)
      ∧ ∀ m : Nat, 49 ≤ m → m ≤ 74 →
          openjdkRequestedVersion (java_version_from_major m) = toString (m - 44) := by
  refine ⟨by decide, by decide, by decide, by decide, by decide, ?_⟩
  intro m h1 h2
  interval_cases m <;> rfl

/-- Concrete instance of `legacy_label_strip_no_roundtrip` at major 52. -/
theorem legacy_label_strip_no_roundtrip_witness :
    openjdkRequestedVersion (java_version_from_major 52) = toString (52 - 44) :=
  legacy_label_strip_no_roundtrip.2.2.2.2.2 52 (by decide) (by decide)

/-! ## SignalCLIInteraction.verify -/

/-- Digit test of Python `str.isdigit` as used on verification codes:
true exactly when the string is non-empty and every character is a
decimal digit. -/
def isdigit (s : String) : Bool :=
  !(s.toList.isEmpty) && s.toList.all Char.isDigit

/-- Outcome of `SignalCLIInteraction.verify` up to the external call:
either the code is rejected locally (`exit(1)` before any subprocess),
or the external client is invoked with the assembled command line. -/
inductive VerifyOutcome where
  | invalidExit
  | invoke (command : String)
deriving DecidableEq

/-- Embedding of `SignalCLIInteraction.verify`: reject the code locally
when it fails the digit test, otherwise invoke the external client
with `<path> -u <phone> verify <code>`. -/
def verify (signal_cli_path phone_number code : String) : VerifyOutcome :=
  if !(isdigit code) then VerifyOutcome.invalidExit
  else VerifyOutcome.invoke
    (signal_cli_path ++ " -u " ++ phone_number ++ " verify " ++ code)

/-- True exactly when a `verify` outcome reaches the external client. -/
def invokesExternal : VerifyOutcome → Bool
  | VerifyOutcome.invalidExit => false
  | VerifyOutcome.invoke _ => true

/-- Claim C6: `verify` invokes the external client if and only if the
code passes the digit test; `abc123` is rejected locally without any
invocation and `123456` proceeds to the invocation. -/
theorem verify_numeric_gate :
    (∀ p ph code : String, invokesExternal (verify p ph code) = isdigit code)
      ∧ verify "signal-cli.bat" "+491234" "abc123" = VerifyOutcome.invalidExit
      ∧ invokesExternal (verify "signal-cli.bat" "+491234" "123456") = true := by
  refine ⟨?_, by decide, by decide⟩
  intro p ph code
  cases h : isdigit code <;> simp [verify, invokesExternal, h]

/-- Claim C10: the empty code is rejected locally — the digit test is
false on the empty string even though no character of it is a
non-digit — so the external client is never invoked. -/
theorem verify_empty_string_rejected :
    verify "signal-cli.bat" "+491234" "" = VerifyOutcome.invalidExit
      ∧ isdigit "" = false
      ∧ "".toList.all Char.isDigit = true := by
  refine ⟨by decide, by decide, by decide⟩

/-! ## FileUtils.extract_zip -/

/-- Filesystem fragment the extraction touches: the directories that
exist and the extracted files with their bytes. -/
structure FS where
  dirs : List String
  files : List (String × List Nat)
deriving DecidableEq

/-- Path joining as the extraction uses it. -/
def joinPath (a b : String) : String := a ++ "/" ++ b

/-- First top-level component of an entry name, modelling
`name.split('/')[0]`: the prefix of the name before the first slash
(the whole name when it has none). -/
def firstTopLevelName (s : String) : String :=
  String.mk (s.toList.takeWhile (fun c => c != '/'))

/-- Destination directory `FileUtils.extract_zip` computes from the
first archive entry: the explicit `folder_name` joined under
`extract_to` when one is given, otherwise the archive's first
top-level entry name joined under `extract_to`. -/
def zipDest (e : JarEntry) (extract_to : String) (folder_name : Option String) : String :=
  match folder_name with
  | some f => joinPath extract_to f
  | none => joinPath extract_to (firstTopLevelName e.name)

/-- Result of a zip extraction run. -/
inductive ZipResult where
  | indexError
  | skipped (dest : String)
  | extracted (dest : String)
deriving DecidableEq

/-- Embedding of `FileUtils.extract_zip`: reading `namelist()[0]` of an
empty archive raises IndexError; otherwise the destination is
`zipDest`; when the destination already exists the extraction returns
at once without touching the filesystem; otherwise the destination
directory is created and every entry is extracted beneath it. -/
def extract_zip (fs : FS) (entries : List JarEntry) (extract_to : String)
    (folder_name : Option String) : FS × ZipResult :=
  match entries with
  | [] => (fs, ZipResult.indexError)
  | e :: _ =>
    let dest := zipDest e extract_to folder_name
    if fs.dirs.contains dest then (fs, ZipResult.skipped dest)
    else ({ dirs := dest :: fs.dirs,
            files := entries.map (fun en => (joinPath dest en.name, en.data)) ++ fs.files },
          ZipResult.extracted dest)

/-- Claim C7: the destination is the explicit subfolder override when
given and the archive's first top-level entry name otherwise; when
that destination already exists the run is skipped as a non-error
no-op returning the filesystem unchanged; consequently re-running the
extraction right after a successful run skips and leaves the
filesystem of the first run byte-identical. -/
theorem extract_zip_skip_idempotent :
    (∀ (e : JarEntry) (et f : String), zipDest e et (some f) = joinPath et f)
      ∧ (∀ (e : JarEntry) (et : String),
          zipDest e et none = joinPath et (firstTopLevelName e.name))
      ∧ (∀ (fs : FS) (e : JarEntry) (rest : List JarEntry) (et : String)
            (fn : Option String),
          zipDest e et fn ∈ fs.dirs →
            extract_zip fs (e :: rest) et fn = (fs, ZipResult.skipped (zipDest e et fn)))
      ∧ (∀ (fs out : FS) (e : JarEntry) (rest : List JarEntry) (et : String)
            (fn : Option String),
          extract_zip fs (e :: rest) et fn = (out, ZipResult.extracted (zipDest e et fn)) →
            extract_zip out (e :: rest) et fn
              = (out, ZipResult.skipped (zipDest e et fn))) := by
  refine ⟨fun e et f => rfl, fun e et => rfl, ?_, ?_⟩
  · intro fs e rest et fn h
    simp [extract_zip, h]
  · intro fs out e rest et fn h
    by_cases hc : zipDest e et fn ∈ fs.dirs
    · simp [extract_zip, hc] at h
    · simp [extract_zip, hc] at h
      rw [← h]
      simp [extract_zip]

/-- Concrete instance of `extract_zip_skip_idempotent`: a first run on
an empty filesystem extracts, and the immediate re-run skips with the
filesystem unchanged. -/
theorem extract_zip_skip_idempotent_witness :
    extract_zip
        (FS.mk ["deps/signal-cli-1.0"]
          [(joinPath "deps/signal-cli-1.0" "signal-cli-1.0/lib/a.jar", [1, 2])])
        [JarEntry.mk "signal-cli-1.0/lib/a.jar" [1, 2]] "deps" none
      = (FS.mk ["deps/signal-cli-1.0"]
          [(joinPath "deps/signal-cli-1.0" "signal-cli-1.0/lib/a.jar", [1, 2])],
         ZipResult.skipped (zipDest (JarEntry.mk "signal-cli-1.0/lib/a.jar" [1, 2]) "deps" none)) :=
  extract_zip_skip_idempotent.2.2.2
    (FS.mk [] [])
    (FS.mk ["deps/signal-cli-1.0"]
      [(joinPath "deps/signal-cli-1.0" "signal-cli-1.0/lib/a.jar", [1, 2])])
    (JarEntry.mk "signal-cli-1.0/lib/a.jar" [1, 2]) [] "deps" none (by decide)

/-! ## SignalCLIInteraction.add_device -/

/-- Outcome of `SignalCLIInteraction.add_device` up to the external
call: rejection of a missing path, the IndexError raised by indexing
an empty decode result, the explicit failed-decode exit, or the
invocation of the external client. -/
inductive AddDeviceOutcome where
  | invalidPathExit
  | indexError
  | decodeFailExit
  | invoke (command : String)
deriving DecidableEq

/-- Embedding of `SignalCLIInteraction.add_device`: the screenshot path
is checked first; then `decode(img)[0].data.decode()` indexes the
decoder's result list, raising IndexError when it is empty; an empty
decoded payload takes the failed-decode exit; otherwise the external
client is invoked with the payload quoted into the command line. -/
def add_device (signal_cli_path phone_number : String) (path_exists : Bool)
    (decoded : List String) : AddDeviceOutcome :=
  if !path_exists then AddDeviceOutcome.invalidPathExit
  else
    match decoded with
    | [] => AddDeviceOutcome.indexError
    | payload :: _ =>
      if payload.isEmpty then AddDeviceOutcome.decodeFailExit
      else AddDeviceOutcome.invoke
        (signal_cli_path ++ " -u " ++ phone_number
          ++ " addDevice --uri \"" ++ payload ++ "\" ")

/-- Claim C9: on an existing path whose image yields no decoded QR
region, `add_device` ends in the IndexError of `decode(img)[0]` — not
in its own failed-decode branch and not in an invocation; and the
failed-decode branch is reachable only when the path exists and the
decoder returned at least one region whose payload is empty. -/
theorem add_device_empty_decode_index_error :
    (∀ p ph : String, add_device p ph true [] = AddDeviceOutcome.indexError)
      ∧ (∀ (p ph : String) (pe : Bool) (decoded : List String),
          add_device p ph pe decoded = AddDeviceOutcome.decodeFailExit →
            pe = true ∧ decoded.head? = some "") := by
  refine ⟨fun p ph => rfl, ?_⟩
  intro p ph pe decoded h
  cases pe
  · simp [add_device] at h
  · refine ⟨rfl, ?_⟩
    match decoded with
    | [] => simp [add_device] at h
    | payload :: rest =>
      by_cases hp : payload.isEmpty
      · rw [String.isEmpty_iff] at hp
        simp [hp]
      · simp [add_device, hp] at h

/-- Concrete instance of `add_device_empty_decode_index_error` on a
decode result holding one empty payload. -/
theorem add_device_empty_decode_witness :
    add_device "signal-cli.bat" "+491234" true [""] = AddDeviceOutcome.decodeFailExit
      ∧ (true = true ∧ ([""] : List String).head? = some "") :=
  ⟨rfl, add_device_empty_decode_index_error.2 "signal-cli.bat" "+491234" true [""] rfl⟩

end SignalRegister
